import Mathlib

/-!
Verification of `pilot/pkg/bootstrap/certcontroller.go` (package `bootstrap`).

The file embeds the two functions of the source, `initCertController` and
`initDNSCerts`, as pure Lean functions.  External effects (the chiron signing
backend, the Kubernetes client, and the file system) are modelled by an
explicit environment record carrying the outcome of each fallible external
call, and by a trace of the effect calls the function issues, in order.
-/

namespace Bootstrap

/-- Constant `defaultCertGracePeriodRatio = 0.5` from the source.  The Go
value is a float constant; 0.5 is exactly representable, so we model it as
the rational 1/2. -/
def defaultCertGracePeriodRatio : Rat := 1 / 2

/-- Constant `defaultMinCertGracePeriod = 10 * time.Minute` from the source,
in nanoseconds (Go `time.Duration` counts nanoseconds; `time.Minute` is
60 * 10^9 ns). -/
def defaultMinCertGracePeriod : Nat := 10 * 60 * 1000000000

/-- Constant `defaultCACertPath` from the source. -/
def defaultCACertPath : String := "/var/run/secrets/kubernetes.io/serviceaccount/ca.crt"

/-- Variable `dnsCertDir` from the source. -/
def dnsCertDir : String := "./var/run/secrets/istio-dns"

/-- `dnsKeyFile = path.Join(dnsCertDir, "key.pem")`.  Go `path.Join` also
runs `path.Clean`, which drops the leading `./`; the cleaning of this fixed
constant is irrelevant to every claim, so we model join as `dir ++ "/" ++
file`. -/
def dnsKeyFile : String := dnsCertDir ++ "/key.pem"

/-- `dnsCertFile = path.Join(dnsCertDir, "cert-chain.pem")`. -/
def dnsCertFile : String := dnsCertDir ++ "/cert-chain.pem"

/-- One entry of `meshConfig.GetCertificates()`: a `Certificate` proto with
`GetDnsNames()` and `GetSecretName()`. -/
structure Certificate where
  dnsNames : List String
  secretName : String
deriving DecidableEq, Repr

/-- Go `strings.Join(elems, ",")`, which equals `String.intercalate ","`. -/
def goJoinComma (elems : List String) : String :=
  String.intercalate "," elems

/-- Character-level splitter behind `goSplitDot`: splits at every `'.'`,
keeping empty fields, one more field than separators. -/
def splitDotChars : List Char → List (List Char)
  | [] => [[]]
  | c :: rest =>
    let fs := splitDotChars rest
    if c = '.' then [] :: fs
    else match fs with
      | [] => [[c]]
      | f :: fs => (c :: f) :: fs

/-- Go `strings.Split(s, ".")`: for n occurrences of "." the result has n+1
fields (empty fields kept); `strings.Split("", ".") = [""]`. -/
def goSplitDot (s : String) : List String :=
  (splitDotChars s.data).map String.mk

/-- The loop body of `initCertController`'s `for _, c := range
meshConfig.GetCertificates()`: the accumulator is the triple of the three
slices `(secretNames, dnsNames, namespaces)` the Go code appends to. -/
def certLoopStep (ns : String) (acc : List String × List String × List String)
    (c : Certificate) : List String × List String × List String :=
  let name := goJoinComma c.dnsNames
  if name.length = 0 then acc
  else if c.secretName.length > 0 then
    (acc.1 ++ [c.secretName], acc.2.1 ++ [name], acc.2.2 ++ [ns])
  else acc

/-- The extraction loop of `initCertController` (source lines 62-73): ranges
over the certificate configs in order, building the parallel slices
`secretNames`, `dnsNames`, `namespaces`. -/
def extractLoop (certs : List Certificate) (ns : String) :
    List String × List String × List String :=
  certs.foldl (certLoopStep ns) ([], [], [])

/-- External calls issued by `initCertController`, in order. -/
inductive CCEffect where
  | newWebhookController (gracePeriodRatio : Rat) (minGracePeriod : Nat)
      (caCertPath : String) (secretNames dnsNames namespaces : List String)
  | addStartFunc
deriving DecidableEq, Repr

/-- Error outcome of `initCertController`: construction of the webhook
controller failed. -/
inductive CCError where
  | constructionError
deriving DecidableEq, Repr

/-- `(*Server).initCertController`.  `certs` is `meshConfig.GetCertificates()`
(a nil Go slice and an empty one both have length 0, so both are the empty
list); `ns` is `args.Namespace`; `ctorOk` is whether the external
`chiron.NewWebhookController` call succeeds.  Returns the function result
paired with the trace of external calls. -/
def initCertController (certs : List Certificate) (ns : String)
    (ctorOk : Bool) : Except CCError Unit × List CCEffect :=
  if certs.isEmpty then (Except.ok (), [])
  else
    let r := extractLoop certs ns
    let eff := CCEffect.newWebhookController defaultCertGracePeriodRatio
        defaultMinCertGracePeriod defaultCACertPath r.1 r.2.1 r.2.2
    if ctorOk then (Except.ok (), [eff, CCEffect.addStartFunc])
    else (Except.error CCError.constructionError, [eff])

/-- The request record of the spec's data model (section 3):
`CertificateRequest = \x7bsecretName, dnsNames (joined), namespace\x7d`.  The
field `ns` is the spec's `namespace` (a Lean keyword). -/
structure CertificateRequest where
  secretName : String
  dnsNames : String
  ns : String
deriving DecidableEq, Repr

/-- Modelled from the spec's words (section 4.1), for comparison with
`extractLoop`: one `CertificateRequest` per config whose joined DNS names
are non-empty and whose secret name is present, in input order, with the
caller's namespace. -/
def specRequests (certs : List Certificate) (ns : String) :
    List CertificateRequest :=
  certs.filterMap fun c =>
    let name := goJoinComma c.dnsNames
    if name.length ≠ 0 ∧ c.secretName.length > 0 then
      some ⟨c.secretName, name, ns⟩
    else none

/-- Name-set computation of `initDNSCerts` (source lines 119-130): start from
`[hostname]`, append the new identity if the hostname is the legacy one, and
the legacy identity if the hostname is the new one. -/
def dnsCertNames (hostname : String) : List String :=
  let names := [hostname]
  let names := if hostname = "istio-pilot.istio-system.svc"
    then names ++ ["istiod.istio-system.svc"] else names
  if hostname = "istiod.istio-system.svc"
    then names ++ ["istio-pilot.istio-system.svc"] else names

/-- External calls issued by `initDNSCerts`, in order:
`chiron.GenKeyCertK8sCA`, `os.MkdirAll`, `ioutil.WriteFile`. -/
inductive FSEffect where
  | genKeyCert (names csrName secretNamespace caFilePath : String)
  | mkdirAll (dir : String) (perm : Nat)
  | writeFile (file content : String) (perm : Nat)
deriving DecidableEq, Repr

/-- Error outcomes of `initDNSCerts`, one per fallible step (the Go code
propagates the collaborator's opaque `error`; the spec names the kinds). -/
inductive DNSCertsError where
  | invalidHostname (hostname : String)
  | signingError
  | persistenceError
deriving DecidableEq, Repr

/-- Environment of external outcomes for one run of `initDNSCerts`:
whether `os.Stat(dnsKeyFile)` finds the key file, the result of
`chiron.GenKeyCertK8sCA` (`some (certChain, keyPEM)` or `none` for a signing
error), and whether each of `os.MkdirAll` and the two `ioutil.WriteFile`
calls succeeds. -/
structure DNSCertsEnv where
  keyFileExists : Bool
  signResult : Option (String × String)
  mkdirOk : Bool
  writeKeyOk : Bool
  writeCertOk : Bool
deriving DecidableEq, Repr

/-- Result of one run of `initDNSCerts`: the returned value, the ordered
trace of external calls attempted, and the files present on disk afterwards
that the run itself wrote. -/
structure DNSCertsResult where
  result : Except DNSCertsError Unit
  trace : List FSEffect
  filesWritten : List String
deriving Repr

/-- `(*Server).initDNSCerts(hostname)` (source lines 106-155), step by step:
skip if the key file exists; split the hostname on `.` and fail below 2
segments; compute the name set; call `GenKeyCertK8sCA` with the comma-joined
names, `parts[0] + ".csr.secret"` and `parts[1]`; then `MkdirAll` and the two
`WriteFile` calls, each aborting on failure. -/
def initDNSCerts (env : DNSCertsEnv) (hostname : String) : DNSCertsResult :=
  if env.keyFileExists then
    ⟨Except.ok (), [], []⟩
  else
    let parts := goSplitDot hostname
    if parts.length < 2 then
      ⟨Except.error (DNSCertsError.invalidHostname hostname), [], []⟩
    else
      let names := dnsCertNames hostname
      let signEff := FSEffect.genKeyCert (goJoinComma names)
        (parts.headD "" ++ ".csr.secret") (parts.getD 1 "") defaultCACertPath
      match env.signResult with
      | none => ⟨Except.error DNSCertsError.signingError, [signEff], []⟩
      | some (certChain, keyPEM) =>
        let mk := FSEffect.mkdirAll dnsCertDir 0o600
        if !env.mkdirOk then
          ⟨Except.error DNSCertsError.persistenceError, [signEff, mk], []⟩
        else
          let wk := FSEffect.writeFile dnsKeyFile keyPEM 0o600
          if !env.writeKeyOk then
            ⟨Except.error DNSCertsError.persistenceError, [signEff, mk, wk], []⟩
          else
            let wc := FSEffect.writeFile dnsCertFile certChain 0o600
            if !env.writeCertOk then
              ⟨Except.error DNSCertsError.persistenceError,
                [signEff, mk, wk, wc], [dnsKeyFile]⟩
            else
              ⟨Except.ok (), [signEff, mk, wk, wc], [dnsKeyFile, dnsCertFile]⟩

/-- The extraction loop's accumulator only grows by appending: folding from
`(a, b, c)` appends exactly what folding from `([], [], [])` produces. -/
lemma foldl_certLoopStep_append (ns : String) (certs : List Certificate)
    (a b c : List String) :
    certs.foldl (certLoopStep ns) (a, b, c) =
      (a ++ (certs.foldl (certLoopStep ns) ([], [], [])).1,
       b ++ (certs.foldl (certLoopStep ns) ([], [], [])).2.1,
       c ++ (certs.foldl (certLoopStep ns) ([], [], [])).2.2) := by
  induction certs generalizing a b c with
  | nil => simp
  | cons ch rest ih =>
    simp only [List.foldl_cons]
    by_cases h1 : (goJoinComma ch.dnsNames).length = 0
    · simp only [certLoopStep, if_pos h1]
      exact ih a b c
    · by_cases h2 : ch.secretName.length > 0
      · simp only [certLoopStep, if_neg h1, if_pos h2, List.nil_append]
        rw [ih (a ++ [ch.secretName]) (b ++ [goJoinComma ch.dnsNames]) (c ++ [ns]),
          ih [ch.secretName] [goJoinComma ch.dnsNames] [ns]]
        simp [List.append_assoc]
      · simp only [certLoopStep, if_neg h1, if_neg h2]
        exact ih a b c

/-- Claim C5: for every input certificate-config list and caller namespace,
extraction produces exactly one `CertificateRequest` per config whose joined
DNS names are non-empty and whose secret name is non-empty, in input order,
with the caller's namespace; configs with empty joined DNS names or an
absent secret name are excluded, and extraction never fails (it is a total
function).  The triple of slices the loop builds is the projection of the
spec's request list. -/
theorem extraction_matches_spec_requests (certs : List Certificate) (ns : String) :
    extractLoop certs ns =
      ((specRequests certs ns).map CertificateRequest.secretName,
       (specRequests certs ns).map CertificateRequest.dnsNames,
       (specRequests certs ns).map CertificateRequest.ns) := by
  induction certs with
  | nil => simp [extractLoop, specRequests]
  | cons ch rest ih =>
    simp only [extractLoop, List.foldl_cons] at ih ⊢
    by_cases h1 : (goJoinComma ch.dnsNames).length = 0
    · have hs : specRequests (ch :: rest) ns = specRequests rest ns := by
        simp [specRequests, List.filterMap_cons, h1]
      rw [hs]
      simpa [certLoopStep, if_pos h1] using ih
    · by_cases h2 : ch.secretName.length > 0
      · have hs : specRequests (ch :: rest) ns =
            ⟨ch.secretName, goJoinComma ch.dnsNames, ns⟩ :: specRequests rest ns := by
          simp [specRequests, List.filterMap_cons, h1, h2]
        rw [hs]
        simp only [certLoopStep, if_neg h1, if_pos h2, List.nil_append]
        rw [foldl_certLoopStep_append ns rest [ch.secretName] [goJoinComma ch.dnsNames] [ns]]
        rw [ih]
        simp
      · have hs : specRequests (ch :: rest) ns = specRequests rest ns := by
          simp [specRequests, List.filterMap_cons, h2]
        rw [hs]
        simpa [certLoopStep, if_neg h1, if_neg h2] using ih

/-- Claim C1, counterexample: with the config list `[{dnsNames: ["svc.c"],
secretName: ""}]` the extracted request list is empty (the missing secret
name excludes the single entry), yet `initCertController` still constructs a
webhook controller (over empty slices) and registers the startup hook —
refuting the claim that an empty request list always means no controller and
no hook. -/
theorem emptyRequests_still_constructs_controller :
    extractLoop [⟨["svc.c"], ""⟩] "ns1" = ([], [], []) ∧
    (initCertController [⟨["svc.c"], ""⟩] "ns1" true).2 =
      [CCEffect.newWebhookController defaultCertGracePeriodRatio
        defaultMinCertGracePeriod defaultCACertPath [] [] [],
       CCEffect.addStartFunc] :=
  ⟨rfl, rfl⟩

/-- Claim C1, amended: no controller is constructed and no startup hook is
registered exactly when the input certificate-config list is empty; when the
input list is non-empty — even if every entry was excluded during extraction,
leaving empty request slices — a controller is constructed over the extracted
slices and, on successful construction, the startup hook is registered. -/
theorem controller_skipped_iff_config_empty (certs : List Certificate)
    (ns : String) (ctorOk : Bool) :
    ((initCertController certs ns ctorOk).2 = [] ↔ certs = []) ∧
    (certs ≠ [] → ctorOk = true →
      (initCertController certs ns ctorOk).2 =
        [CCEffect.newWebhookController defaultCertGracePeriodRatio
          defaultMinCertGracePeriod defaultCACertPath
          (extractLoop certs ns).1 (extractLoop certs ns).2.1
          (extractLoop certs ns).2.2,
         CCEffect.addStartFunc]) := by
  cases certs with
  | nil => simp [initCertController]
  | cons ch rest =>
    cases ctorOk <;> simp [initCertController]

/-- Witness for `controller_skipped_iff_config_empty` at the one-entry
excluded config. -/
theorem controller_skipped_iff_config_empty_witness :
    (initCertController [⟨["svc.c"], ""⟩] "ns1" true).2 =
      [CCEffect.newWebhookController defaultCertGracePeriodRatio
        defaultMinCertGracePeriod defaultCACertPath
        (extractLoop [⟨["svc.c"], ""⟩] "ns1").1
        (extractLoop [⟨["svc.c"], ""⟩] "ns1").2.1
        (extractLoop [⟨["svc.c"], ""⟩] "ns1").2.2,
       CCEffect.addStartFunc] :=
  (controller_skipped_iff_config_empty [⟨["svc.c"], ""⟩] "ns1" true).2
    (List.cons_ne_nil _ _) rfl

/-- Claim C2: for every hostname that passes validation (at least 2
dot-separated segments), the name set is exactly the two migration aliases
when the hostname is the legacy or the new istiod identity, and exactly
`[hostname]` otherwise. -/
theorem dns_cert_names_exact (h : String)
    (hv : 2 ≤ (goSplitDot h).length) :
    (h = "istio-pilot.istio-system.svc" →
      dnsCertNames h = ["istio-pilot.istio-system.svc", "istiod.istio-system.svc"]) ∧
    (h = "istiod.istio-system.svc" →
      dnsCertNames h = ["istiod.istio-system.svc", "istio-pilot.istio-system.svc"]) ∧
    (h ≠ "istio-pilot.istio-system.svc" → h ≠ "istiod.istio-system.svc" →
      dnsCertNames h = [h]) := by
  refine ⟨fun he => ?_, fun he => ?_, fun h1 h2 => ?_⟩
  · subst he; rfl
  · subst he; rfl
  · simp [dnsCertNames, h1, h2]

/-- Witness for `dns_cert_names_exact` at the legacy identity. -/
theorem dns_cert_names_exact_witness :
    dnsCertNames "istio-pilot.istio-system.svc" =
      ["istio-pilot.istio-system.svc", "istiod.istio-system.svc"] :=
  (dns_cert_names_exact "istio-pilot.istio-system.svc" (by decide)).1 rfl

/-- Claim C8: every webhook-controller construction issued by
`initCertController` carries the fixed rotation policy — grace-period ratio
1/2, minimum grace period 10 minutes (in nanoseconds) — and the fixed
trust-anchor path, never values computed from the input. -/
theorem controller_policy_fixed (certs : List Certificate) (ns : String)
    (ctorOk : Bool) (ratio : Rat) (mgp : Nat) (ca : String)
    (sn dn nss : List String)
    (hmem : CCEffect.newWebhookController ratio mgp ca sn dn nss ∈
      (initCertController certs ns ctorOk).2) :
    ratio = 1 / 2 ∧ mgp = 10 * 60 * 1000000000 ∧
      ca = "/var/run/secrets/kubernetes.io/serviceaccount/ca.crt" := by
  unfold initCertController at hmem
  by_cases he : certs.isEmpty
  · simp [he] at hmem
  · cases ctorOk <;> simp [he, CCEffect.newWebhookController.injEq] at hmem <;>
      exact ⟨hmem.1, hmem.2.1, hmem.2.2.1⟩

/-- Witness for `controller_policy_fixed` at a one-entry config. -/
theorem controller_policy_fixed_witness :
    defaultCertGracePeriodRatio = 1 / 2 ∧
    defaultMinCertGracePeriod = 10 * 60 * 1000000000 ∧
    defaultCACertPath = "/var/run/secrets/kubernetes.io/serviceaccount/ca.crt" :=
  controller_policy_fixed [⟨["a.b"], "sec"⟩] "ns1" true
    defaultCertGracePeriodRatio defaultMinCertGracePeriod defaultCACertPath
    (extractLoop [⟨["a.b"], "sec"⟩] "ns1").1
    (extractLoop [⟨["a.b"], "sec"⟩] "ns1").2.1
    (extractLoop [⟨["a.b"], "sec"⟩] "ns1").2.2
    (List.mem_cons_self _ _)

/-- Claim C3, counterexample: the hostname "x" has a single dot-separated
segment, yet when the key file already exists `initDNSCerts` returns success
rather than an invalid-hostname error — so the claim, quantified over every
state, is false. -/
theorem invalid_hostname_ok_when_key_exists :
    (goSplitDot "x").length < 2 ∧
    (initDNSCerts ⟨true, some ("certChain", "keyPEM"), true, true, true⟩
      "x").result = Except.ok () :=
  ⟨by decide, rfl⟩

/-- Claim C3, amended: when the key file does not already exist at the fixed
path, every hostname with fewer than 2 dot-separated segments makes
`initDNSCerts` fail with the invalid-hostname error, with no signing call,
no directory or file operation, and no file written. -/
theorem invalid_hostname_fails_when_key_absent (env : DNSCertsEnv)
    (h : String) (hk : env.keyFileExists = false)
    (hl : (goSplitDot h).length < 2) :
    initDNSCerts env h =
      ⟨Except.error (DNSCertsError.invalidHostname h), [], []⟩ := by
  simp [initDNSCerts, hk, hl]

/-- Witness for `invalid_hostname_fails_when_key_absent` at hostname "x". -/
theorem invalid_hostname_fails_when_key_absent_witness :
    initDNSCerts ⟨false, some ("certChain", "keyPEM"), true, true, true⟩ "x" =
      ⟨Except.error (DNSCertsError.invalidHostname "x"), [], []⟩ :=
  invalid_hostname_fails_when_key_absent _ "x" rfl (by decide)

/-- Claim C4: if the key file already exists when `initDNSCerts` starts,
then for every hostname the run issues no external call at all (no signing,
no directory creation, no write), writes no file, and returns success. -/
theorem key_exists_skips_provisioning (env : DNSCertsEnv) (h : String)
    (hk : env.keyFileExists = true) :
    initDNSCerts env h = ⟨Except.ok (), [], []⟩ := by
  simp [initDNSCerts, hk]

/-- Witness for `key_exists_skips_provisioning`. -/
theorem key_exists_skips_provisioning_witness :
    initDNSCerts ⟨true, none, false, false, false⟩ "istiod.istio-system.svc" =
      ⟨Except.ok (), [], []⟩ :=
  key_exists_skips_provisioning _ _ rfl

/-- Claim C9: the key-file-exists check precedes hostname validation — even
a hostname with fewer than 2 dot-separated segments yields success, not an
invalid-hostname error, when the key file exists. -/
theorem skip_check_precedes_validation (env : DNSCertsEnv) (h : String)
    (hk : env.keyFileExists = true)
    (_hl : (goSplitDot h).length < 2) :
    (initDNSCerts env h).result = Except.ok () ∧
    (initDNSCerts env h).result ≠
      Except.error (DNSCertsError.invalidHostname h) := by
  simp [initDNSCerts, hk]

/-- Witness for `skip_check_precedes_validation` at the one-segment
hostname "istiod". -/
theorem skip_check_precedes_validation_witness :
    (initDNSCerts ⟨true, none, true, true, true⟩ "istiod").result =
        Except.ok () ∧
    (initDNSCerts ⟨true, none, true, true, true⟩ "istiod").result ≠
      Except.error (DNSCertsError.invalidHostname "istiod") :=
  skip_check_precedes_validation _ "istiod" rfl (by decide)

/-- Claim C6: once signing and directory creation succeed, the key file is
written strictly before the certificate-chain file (positions 2 and 3 of the
call trace); if the certificate-chain write fails, the error is surfaced to
the caller and the already-written key file is left in place. -/
theorem key_written_before_chain_and_kept_on_failure (env : DNSCertsEnv)
    (h cc kp : String) (hk : env.keyFileExists = false)
    (hl : ¬ (goSplitDot h).length < 2)
    (hs : env.signResult = some (cc, kp))
    (hm : env.mkdirOk = true) (hw : env.writeKeyOk = true) :
    (initDNSCerts env h).trace =
      [FSEffect.genKeyCert (goJoinComma (dnsCertNames h))
        ((goSplitDot h).headD "" ++ ".csr.secret") ((goSplitDot h).getD 1 "")
        defaultCACertPath,
       FSEffect.mkdirAll dnsCertDir 0o600,
       FSEffect.writeFile dnsKeyFile kp 0o600,
       FSEffect.writeFile dnsCertFile cc 0o600] ∧
    (env.writeCertOk = false →
      (initDNSCerts env h).result =
        Except.error DNSCertsError.persistenceError ∧
      dnsKeyFile ∈ (initDNSCerts env h).filesWritten) := by
  cases hwc : env.writeCertOk <;>
    simp [initDNSCerts, hk, hl, hs, hm, hw, hwc]

/-- Witness for `key_written_before_chain_and_kept_on_failure` with the
chain write failing. -/
theorem key_written_before_chain_and_kept_on_failure_witness :
    (initDNSCerts ⟨false, some ("cc", "kp"), true, true, false⟩
        "a.b").trace =
      [FSEffect.genKeyCert (goJoinComma (dnsCertNames "a.b"))
        ((goSplitDot "a.b").headD "" ++ ".csr.secret")
        ((goSplitDot "a.b").getD 1 "") defaultCACertPath,
       FSEffect.mkdirAll dnsCertDir 0o600,
       FSEffect.writeFile dnsKeyFile "kp" 0o600,
       FSEffect.writeFile dnsCertFile "cc" 0o600] ∧
    (false = false →
      (initDNSCerts ⟨false, some ("cc", "kp"), true, true, false⟩
          "a.b").result = Except.error DNSCertsError.persistenceError ∧
      dnsKeyFile ∈ (initDNSCerts ⟨false, some ("cc", "kp"), true, true,
          false⟩ "a.b").filesWritten) :=
  key_written_before_chain_and_kept_on_failure _ "a.b" "cc" "kp" rfl
    (by decide) rfl rfl rfl

/-- Claim C7: every successful (non-skipped) run of `initDNSCerts` issues
exactly the signing call, a `MkdirAll` of the fixed certificate directory
with permission mode 0600, and the key-file and certificate-chain-file
writes, each with permission mode 0600 — the directory mode equals the file
mode. -/
theorem success_writes_key_and_chain_mode0600 (env : DNSCertsEnv)
    (h : String) (hk : env.keyFileExists = false)
    (hok : (initDNSCerts env h).result = Except.ok ()) :
    ∃ cc kp, env.signResult = some (cc, kp) ∧
      (initDNSCerts env h).trace =
        [FSEffect.genKeyCert (goJoinComma (dnsCertNames h))
          ((goSplitDot h).headD "" ++ ".csr.secret")
          ((goSplitDot h).getD 1 "") defaultCACertPath,
         FSEffect.mkdirAll dnsCertDir 0o600,
         FSEffect.writeFile dnsKeyFile kp 0o600,
         FSEffect.writeFile dnsCertFile cc 0o600] := by
  by_cases hl : (goSplitDot h).length < 2
  · rw [invalid_hostname_fails_when_key_absent env h hk hl] at hok
    cases hok
  · cases hsr : env.signResult with
    | none => simp [initDNSCerts, hk, hl, hsr] at hok
    | some p =>
      obtain ⟨cc, kp⟩ := p
      cases hm : env.mkdirOk with
      | false => simp [initDNSCerts, hk, hl, hsr, hm] at hok
      | true =>
        cases hw : env.writeKeyOk with
        | false => simp [initDNSCerts, hk, hl, hsr, hm, hw] at hok
        | true =>
          cases hwc : env.writeCertOk with
          | false => simp [initDNSCerts, hk, hl, hsr, hm, hw, hwc] at hok
          | true =>
            exact ⟨cc, kp, rfl, by simp [initDNSCerts, hk, hl, hsr, hm, hw, hwc]⟩

/-- Witness for `success_writes_key_and_chain_mode0600`. -/
theorem success_writes_key_and_chain_mode0600_witness :
    ∃ cc kp,
      (⟨false, some ("cc", "kp"), true, true, true⟩ :
        DNSCertsEnv).signResult = some (cc, kp) ∧
      (initDNSCerts ⟨false, some ("cc", "kp"), true, true, true⟩
          "a.b").trace =
        [FSEffect.genKeyCert (goJoinComma (dnsCertNames "a.b"))
          ((goSplitDot "a.b").headD "" ++ ".csr.secret")
          ((goSplitDot "a.b").getD 1 "") defaultCACertPath,
         FSEffect.mkdirAll dnsCertDir 0o600,
         FSEffect.writeFile dnsKeyFile kp 0o600,
         FSEffect.writeFile dnsCertFile cc 0o600] :=
  success_writes_key_and_chain_mode0600 _ "a.b" rfl rfl

/-- Claim C10: every non-skipped run on a valid hostname issues the signing
call first, with the comma-joined name set (whose first element is the input
hostname), the CSR identifier built from exactly the first dot-separated
segment suffixed ".csr.secret", and exactly the second segment as the
namespace — further segments are ignored. -/
theorem signing_request_shape (env : DNSCertsEnv) (h : String)
    (hk : env.keyFileExists = false)
    (hl : ¬ (goSplitDot h).length < 2) :
    (initDNSCerts env h).trace.head? =
      some (FSEffect.genKeyCert (goJoinComma (dnsCertNames h))
        ((goSplitDot h).headD "" ++ ".csr.secret") ((goSplitDot h).getD 1 "")
        defaultCACertPath) ∧
    (dnsCertNames h).headD "" = h := by
  constructor
  · cases hsr : env.signResult with
    | none => simp [initDNSCerts, hk, hl, hsr]
    | some p =>
      obtain ⟨cc, kp⟩ := p
      cases hm : env.mkdirOk <;> cases hw : env.writeKeyOk <;>
        cases hwc : env.writeCertOk <;>
        simp [initDNSCerts, hk, hl, hsr, hm, hw, hwc]
  · unfold dnsCertNames
    by_cases h1 : h = "istio-pilot.istio-system.svc" <;>
      by_cases h2 : h = "istiod.istio-system.svc" <;> simp [h1, h2]

/-- Witness for `signing_request_shape` at a four-segment hostname, showing
the third and fourth segments are ignored. -/
theorem signing_request_shape_witness :
    (initDNSCerts ⟨false, none, true, true, true⟩ "a.b.c.d").trace.head? =
      some (FSEffect.genKeyCert (goJoinComma (dnsCertNames "a.b.c.d"))
        ((goSplitDot "a.b.c.d").headD "" ++ ".csr.secret")
        ((goSplitDot "a.b.c.d").getD 1 "") defaultCACertPath) ∧
    (dnsCertNames "a.b.c.d").headD "" = "a.b.c.d" :=
  signing_request_shape _ "a.b.c.d" rfl (by decide)

end Bootstrap
